import Mathlib

/-
Verification of the sidebar bookmark manager (content script `content.tsx`
and the background storage handler).  The definitions below are a shallow
embedding of the TypeScript source: each `def` mirrors one function of the
source, keeping its name, the order of its checks, and its literal message
strings.  Theorems at the end of the file settle the specified properties.
-/

namespace Sidebar

/-- JavaScript runtime values, as far as the message handlers inspect them:
`null`, `undefined`, booleans, numbers, strings and arrays. -/
inductive JsValue where
  | null
  | undefined
  | bool (b : Bool)
  | num (n : Int)
  | str (s : String)
  | arr (elems : List JsValue)

/-- JavaScript truthiness of a value (`if (data)`): `null`, `undefined`,
`false`, `0` and the empty string are falsy; every array is truthy. -/
def JsValue.truthy : JsValue → Bool
  | .null => false
  | .undefined => false
  | .bool b => b
  | .num n => n != 0
  | .str s => s != ""
  | .arr _ => true

/-- `Array.isArray(data)`. -/
def JsValue.isArray : JsValue → Bool
  | .arr _ => true
  | _ => false

/-- The WHATWG special schemes that require an authority (host); `file` is
left out because the URL parser accepts `file` URLs with an empty host. -/
def specialSchemes : List String := ["ftp", "http", "https", "ws", "wss"]

/-- Characters allowed after the first character of a URL scheme. -/
def isSchemeTailChar (c : Char) : Bool :=
  c.isAlphanum || c == '+' || c == '-' || c == '.'

/-- `isValidUrl` in `content.tsx` returns whether `new URL(url)` succeeds.
The WHATWG URL parser is platform code, modelled here by its decisive
checks: the string must have a scheme (a letter followed by scheme
characters and a colon), and a special scheme must be followed by a
non-empty host.  This is the behaviour on every URL shape appearing in
this development (strings without a colon are invalid, strings such as
`https://a.com` are valid). -/
def isValidUrl (url : String) : Bool :=
  let cs := url.toList
  match cs.findIdx? (· == ':') with
  | none => false
  | some i =>
    let scheme := cs.take i
    let rest := cs.drop (i + 1)
    match scheme with
    | [] => false
    | c :: tl =>
      c.isAlpha && tl.all isSchemeTailChar &&
      (if specialSchemes.contains (String.mk (scheme.map Char.toLower)) then
        match rest.dropWhile (· == '/') with
        | [] => false
        | h :: _ => h != '?' && h != '#'
      else true)

/-- Result of `handleAddLink`: the updated working list together with the
`addLinkError` message (empty when the add succeeded). -/
structure AddOutcome where
  userLinks : List String
  addLinkError : String

/-- The blank test of `handleAddLink`, `!newLinkUrl.trim()`: the trimmed
string is empty exactly when every character of the string is whitespace,
which is how the test is embedded (`String.trim` itself is not
kernel-computable). -/
def isBlank (url : String) : Bool := url.toList.all Char.isWhitespace

/-- `handleAddLink` of `content.tsx`: reject a blank URL, then a
syntactically invalid URL, then an exact-string duplicate; otherwise
append the URL at the end of the working list. -/
def handleAddLink (userLinks : List String) (newLinkUrl : String) : AddOutcome :=
  if isBlank newLinkUrl then
    { userLinks := userLinks, addLinkError := "Please enter a URL" }
  else if !isValidUrl newLinkUrl then
    { userLinks := userLinks, addLinkError := "Please enter a valid URL" }
  else if userLinks.contains newLinkUrl then
    { userLinks := userLinks, addLinkError := "This URL is already added" }
  else
    { userLinks := userLinks ++ [newLinkUrl], addLinkError := "" }

/-- The parsed JSON document exchanged by export and import.  Import only
ever reads the `urls` property, so the document is modelled by its three
named properties; a property that is absent holds `JsValue.undefined`. -/
structure JsonDoc where
  urls : JsValue
  exportDate : JsValue
  version : JsValue

/-- `handleExportData` of `content.tsx`: serialize the working list with an
export timestamp and the version tag `1.0`.  The timestamp produced by
`new Date().toISOString()` is passed in as a parameter. -/
def handleExportData (userLinks : List String) (exportDate : String) : JsonDoc :=
  { urls := .arr (userLinks.map .str)
    exportDate := .str exportDate
    version := .str "1.0" }

/-- The per-entry test of the import loop:
`typeof url === 'string' && isValidUrl(url)`. -/
def isValidImportEntry : JsValue → Bool
  | .str s => isValidUrl s
  | _ => false

/-- The classification loop of `processImportedFile`: walk the `urls` array
in order, pushing each entry either onto `validUrls` (as a string) or onto
`invalidUrls` (as the raw value). -/
def classifyImportUrls : List JsValue → List String × List JsValue
  | [] => ([], [])
  | v :: rest =>
    let tail := classifyImportUrls rest
    match v with
    | .str s =>
      if isValidUrl s then (s :: tail.1, tail.2) else (tail.1, .str s :: tail.2)
    | other => (tail.1, other :: tail.2)

/-- Result of `processImportedFile`: the updated working list together with
the `importError` and `importSuccess` messages it sets. -/
structure ImportOutcome where
  userLinks : List String
  importError : String
  importSuccess : String

/-- The success message template of `processImportedFile`, reporting the
count of newly imported URLs and, when non-zero, the count of invalid
entries skipped. -/
def importSuccessMessage (newCount invalidCount : Nat) : String :=
  let base := "Successfully imported " ++ toString newCount ++ " new URL" ++
    (if newCount > 1 then "s" else "") ++ "."
  if invalidCount > 0 then
    base ++ " " ++ toString invalidCount ++ " invalid URL" ++
      (if invalidCount > 1 then "s were" else " was") ++ " skipped."
  else
    base

/-- `processImportedFile` of `content.tsx`, from the parsed document on:
require a truthy `urls` array, classify its entries into valid and invalid,
fail when no entry is valid, drop the valid entries already present in the
working list (membership in `new Set(userLinks)`), and append the remaining
ones in file order.  The upstream steps (file-extension check, reading the
file, `JSON.parse`) are modelled as having produced the document. -/
def processImportedFile (userLinks : List String) (importData : JsonDoc) : ImportOutcome :=
  if !importData.urls.truthy || !importData.urls.isArray then
    { userLinks := userLinks
      importError := "Invalid file format. Expected JSON with \"urls\" array."
      importSuccess := "" }
  else
    let entries := match importData.urls with
      | .arr es => es
      | _ => []
    let validUrls := (classifyImportUrls entries).1
    let invalidUrls := (classifyImportUrls entries).2
    if validUrls.length == 0 then
      { userLinks := userLinks
        importError := "No valid URLs found in the imported file."
        importSuccess := "" }
    else
      let newUrls := validUrls.filter (fun u => !userLinks.contains u)
      if newUrls.length == 0 then
        { userLinks := userLinks
          importError := ""
          importSuccess := "All URLs from the file are already in your list." }
      else
        { userLinks := userLinks ++ newUrls
          importError := ""
          importSuccess := importSuccessMessage newUrls.length invalidUrls.length }

/-- The valid entries of an import file that are already present in the
working list: the entries the import skips as duplicates. -/
def importDuplicateSkipped (userLinks : List String) (entries : List JsValue) : List String :=
  (classifyImportUrls entries).1.filter (fun u => userLinks.contains u)

/-- The slice of controller state that the delete flow touches. -/
structure DeleteDialogState where
  userLinks : List String
  showDeleteConfirmation : Bool
  urlToDelete : String

/-- `handleConfirmDelete` of `content.tsx`: when `urlToDelete` is truthy
(a non-empty string), keep exactly the entries different from it
(`prev.filter(url => url !== urlToDelete)`), then close the dialog. -/
def handleConfirmDelete (s : DeleteDialogState) : DeleteDialogState :=
  { userLinks :=
      if s.urlToDelete != "" then s.userLinks.filter (fun url => url != s.urlToDelete)
      else s.userLinks
    showDeleteConfirmation := false
    urlToDelete := "" }

/-- `handleCancelDelete` of `content.tsx`: close the dialog, leaving the
working list untouched. -/
def handleCancelDelete (s : DeleteDialogState) : DeleteDialogState :=
  { s with showDeleteConfirmation := false, urlToDelete := "" }

/-- The save effect of `content.tsx` (the `useEffect` on `userLinks`): a
`save-user-links` message is sent only when the working list is non-empty
(`if (userLinks.length > 0)`), and the background handler then replaces the
stored list wholesale.  Returns whether a save message was issued and the
stored list afterwards. -/
def saveUserLinksEffect (userLinks stored : List String) : Bool × List String :=
  if userLinks.length > 0 then (true, userLinks) else (false, stored)

/-- The response shape of the `save-user-links` background handler. -/
structure SaveUserLinksResponse where
  success : Bool
  error : Option String

/-- The `save-user-links` handler of the background script: accept the
payload when it is truthy and an array (`if (data && Array.isArray(data))`),
replacing the stored value wholesale; otherwise answer with the fixed error
message and leave the store unchanged. -/
def onSaveUserLinks (data : JsValue) (stored : JsValue) : SaveUserLinksResponse × JsValue :=
  if data.truthy && data.isArray then
    ({ success := true, error := none }, data)
  else
    ({ success := false, error := some "No data provided or invalid data format" }, stored)

/-- The response shape of the `load-user-links` background handler. -/
structure LoadUserLinksResponse where
  success : Bool
  data : Option (List String)
  error : Option String

/-- What one load attempt observes: either a response object from the
background, or an exception thrown by `sendMessage` (which the loop's
`catch` absorbs). -/
inductive LoadAttemptOutcome where
  | response (r : LoadUserLinksResponse)
  | thrown (msg : String)

/-- The success test of the retry loop,
`response && response.success && response.data`: the attempt yields a list
exactly when a response arrived with `success` set and a present `data`
field (an array is truthy even when empty; a thrown exception yields
nothing). -/
def loadAttemptData : LoadAttemptOutcome → Option (List String)
  | .response r => if r.success && r.data.isSome then r.data else none
  | .thrown _ => none

/-- Trace of one run of the load-with-retry loop: how many attempts were
made, which delays were waited (in milliseconds, in order), and the working
list when the loop returned. -/
structure LoadRun where
  attempts : Nat
  waits : List Nat
  userLinks : List String

/-- The body of `loadUserLinksWithRetry`: `for (attempt = 1; attempt <=
maxRetries; attempt++)`, succeeding attempts return at once with the loaded
data; failing attempts wait `delay` and multiply it by 1.5 unless the
attempt was the last.  The remaining iteration count drives the recursion;
`delay * 3 / 2` is exact on the delays reached (500 and 750), matching the
JavaScript float multiplication.  Exceptions are absorbed by the `catch`
inside the loop, so the function always returns normally. -/
def loadLoop (respond : Nat → LoadAttemptOutcome) :
    Nat → Nat → Nat → Nat → List Nat → List String → LoadRun
  | _, 0, _, made, waits, links =>
    { attempts := made, waits := waits.reverse, userLinks := links }
  | attempt, remaining + 1, delay, made, waits, links =>
    match loadAttemptData (respond attempt) with
    | some data => { attempts := made + 1, waits := waits.reverse, userLinks := data }
    | none =>
      if remaining == 0 then
        { attempts := made + 1, waits := waits.reverse, userLinks := links }
      else
        loadLoop respond (attempt + 1) remaining (delay * 3 / 2) (made + 1) (delay :: waits) links

/-- `loadUserLinksWithRetry` of `content.tsx` with its default arguments
`maxRetries = 3`, `delay = 500`, run against a backend `respond` giving the
outcome of each attempt, starting from the mount-time working list. -/
def loadUserLinksWithRetry (respond : Nat → LoadAttemptOutcome)
    (userLinks : List String) : LoadRun :=
  loadLoop respond 1 3 500 0 [] userLinks

/-- `handleIconDrop` of `content.tsx`: a drop with no drag in progress or
onto the dragged entry's own index is a no-op; otherwise the dragged entry
is removed from its source index (`splice(draggedIndex, 1)`) and reinserted
at the drop index (`splice(dropIndex, 0, draggedItem)`). -/
def handleIconDrop (userLinks : List String) (draggedIndex : Option Nat)
    (dropIndex : Nat) : List String :=
  match draggedIndex with
  | none => userLinks
  | some d =>
    if d == dropIndex then userLinks
    else
      let draggedItem := userLinks.getD d ""
      (userLinks.eraseIdx d).insertIdx dropIndex draggedItem

/-- The string a file entry contributes when it passes the import test:
a valid URL string yields itself, everything else yields nothing. -/
def importEntryUrl? : JsValue → Option String
  | .str s => if isValidUrl s then some s else none
  | _ => none

/-- The valid URLs offered by an import document, in file order. -/
def fileValidUrls (doc : JsonDoc) : List String :=
  match doc.urls with
  | .arr es => (classifyImportUrls es).1
  | _ => []

/- Helper lemmas about the embedded operations. -/

theorem classifyImportUrls_fst (es : List JsValue) :
    (classifyImportUrls es).1 = es.filterMap importEntryUrl? := by
  induction es with
  | nil => rfl
  | cons v rest ih =>
    cases v with
    | str s =>
      cases h : isValidUrl s <;>
        simp [classifyImportUrls, List.filterMap_cons, importEntryUrl?, h, ih]
    | null => simp [classifyImportUrls, List.filterMap_cons, importEntryUrl?, ih]
    | undefined => simp [classifyImportUrls, List.filterMap_cons, importEntryUrl?, ih]
    | bool b => simp [classifyImportUrls, List.filterMap_cons, importEntryUrl?, ih]
    | num n => simp [classifyImportUrls, List.filterMap_cons, importEntryUrl?, ih]
    | arr es2 => simp [classifyImportUrls, List.filterMap_cons, importEntryUrl?, ih]

theorem classifyImportUrls_snd (es : List JsValue) :
    (classifyImportUrls es).2 = es.filter (fun v => !isValidImportEntry v) := by
  induction es with
  | nil => rfl
  | cons v rest ih =>
    cases v with
    | str s =>
      cases h : isValidUrl s <;>
        simp [classifyImportUrls, List.filter_cons, isValidImportEntry, h, ih]
    | null => simp [classifyImportUrls, List.filter_cons, isValidImportEntry, ih]
    | undefined => simp [classifyImportUrls, List.filter_cons, isValidImportEntry, ih]
    | bool b => simp [classifyImportUrls, List.filter_cons, isValidImportEntry, ih]
    | num n => simp [classifyImportUrls, List.filter_cons, isValidImportEntry, ih]
    | arr es2 => simp [classifyImportUrls, List.filter_cons, isValidImportEntry, ih]

theorem processImportedFile_arr (links : List String) (es : List JsValue)
    (ed ver : JsValue) :
    processImportedFile links { urls := .arr es, exportDate := ed, version := ver } =
      (if ((classifyImportUrls es).1.length == 0) = true then
        { userLinks := links
          importError := "No valid URLs found in the imported file."
          importSuccess := "" }
      else if (((classifyImportUrls es).1.filter
            (fun u => !links.contains u)).length == 0) = true then
        { userLinks := links
          importError := ""
          importSuccess := "All URLs from the file are already in your list." }
      else
        { userLinks := links ++ (classifyImportUrls es).1.filter (fun u => !links.contains u)
          importError := ""
          importSuccess :=
            importSuccessMessage
              ((classifyImportUrls es).1.filter (fun u => !links.contains u)).length
              (classifyImportUrls es).2.length }) := rfl

theorem processImportedFile_not_arr (links : List String) (u ed ver : JsValue)
    (h : u.isArray = false) :
    processImportedFile links { urls := u, exportDate := ed, version := ver } =
      { userLinks := links
        importError := "Invalid file format. Expected JSON with \"urls\" array."
        importSuccess := "" } := by
  cases u <;> simp_all [processImportedFile, JsValue.isArray, JsValue.truthy]

theorem insertIdx_perm_cons (x : String) :
    ∀ (n : Nat) (l : List String), n ≤ l.length → List.Perm (l.insertIdx n x) (x :: l)
  | 0, l, _ => by simp
  | n + 1, [], h => by simp at h
  | n + 1, a :: l, h => by
    have ih := insertIdx_perm_cons x n l (by simpa using h)
    rw [List.insertIdx_succ_cons]
    exact (ih.cons a).trans (List.Perm.swap x a l)

theorem map_str_classify (ls : List String) (hls : ∀ u ∈ ls, isValidUrl u = true) :
    (classifyImportUrls (ls.map .str)).1 = ls := by
  revert hls
  induction ls with
  | nil => intro _; rfl
  | cons a rest ih =>
    intro hls
    simp only [List.map_cons, classifyImportUrls, hls a (by simp), if_true]
    rw [ih (fun u hu => hls u (by simp [hu]))]

/-- C1 counterexample: importing a file whose urls array contains the valid
URL https://a.com twice into the empty (duplicate-free) working list yields
a working list containing that URL twice — the uniqueness claim fails on
files that repeat a valid new URL. -/
theorem C1_import_duplicate_counterexample :
    (processImportedFile []
      { urls := .arr [.str "https://a.com", .str "https://a.com"]
        exportDate := .undefined
        version := .undefined }).userLinks = ["https://a.com", "https://a.com"] ∧
    ¬ (["https://a.com", "https://a.com"] : List String).Nodup :=
  ⟨rfl, by decide⟩

/-- C1 amended: starting from a duplicate-free working list, Add always
yields a duplicate-free list, and Import yields a duplicate-free list
provided the file's valid URLs contain no internal repetition — Import
deduplicates only against the pre-existing working list, not within the
file. -/
theorem C1_uniqueness_amended (links : List String) (u : String) (doc : JsonDoc)
    (hnd : links.Nodup) (hfile : (fileValidUrls doc).Nodup) :
    (handleAddLink links u).userLinks.Nodup ∧
    (processImportedFile links doc).userLinks.Nodup := by
  constructor
  · unfold handleAddLink
    split_ifs with h1 h2 h3
    · exact hnd
    · exact hnd
    · exact hnd
    · refine hnd.append (List.nodup_singleton u) ?_
      intro a ha hau
      rw [List.mem_singleton] at hau
      subst hau
      exact h3 (by simpa using ha)
  · obtain ⟨urls, ed, ver⟩ := doc
    cases urls with
    | arr es =>
      rw [processImportedFile_arr]
      have hfile' : (classifyImportUrls es).1.Nodup := hfile
      split_ifs with h1 h2
      · exact hnd
      · exact hnd
      · refine hnd.append (hfile'.filter _) ?_
        intro a ha haf
        rw [List.mem_filter] at haf
        have hc : links.contains a = false := by simpa using haf.2
        have : a ∉ links := by simpa using hc
        exact this ha
    | null => rw [processImportedFile_not_arr links .null ed ver rfl]; exact hnd
    | undefined => rw [processImportedFile_not_arr links .undefined ed ver rfl]; exact hnd
    | bool b => rw [processImportedFile_not_arr links (.bool b) ed ver rfl]; exact hnd
    | num n => rw [processImportedFile_not_arr links (.num n) ed ver rfl]; exact hnd
    | str s => rw [processImportedFile_not_arr links (.str s) ed ver rfl]; exact hnd

/-- C1 amended, witness: adding a fresh URL to a one-element list and
importing a two-distinct-URL file into it both keep the list
duplicate-free. -/
theorem C1_uniqueness_amended_witness :
    (handleAddLink ["https://a.com"] "https://b.com").userLinks.Nodup ∧
    (processImportedFile ["https://a.com"]
      { urls := .arr [.str "https://a.com", .str "https://b.com"]
        exportDate := .undefined
        version := .undefined }).userLinks.Nodup :=
  C1_uniqueness_amended ["https://a.com"] "https://b.com"
    { urls := .arr [.str "https://a.com", .str "https://b.com"]
      exportDate := .undefined
      version := .undefined }
    (by decide) (by decide)

/-- C3 counterexample: the save handler accepts the payload `[42]` — an
array that is not a sequence of strings — answering success and
wholesale-replacing the stored value with it, where the claim demands an
error result. -/
theorem C3_save_counterexample :
    onSaveUserLinks (.arr [.num 42]) (.arr []) =
      ({ success := true, error := none }, .arr [.num 42]) := rfl

/-- C3 amended: the save-user-links handler returns success, and
wholesale-replaces the stored value, exactly when the payload is an array
(arrays are always truthy and element types are never inspected); every
non-array payload gets the fixed error response and leaves the store
unchanged.  The empty array is accepted. -/
theorem C3_save_amended (data stored : JsValue) :
    (onSaveUserLinks data stored).1.success = data.isArray ∧
    (onSaveUserLinks data stored).2 = (if data.isArray then data else stored) ∧
    (onSaveUserLinks data stored).1.error =
      (if data.isArray then none
       else some "No data provided or invalid data format") := by
  cases data <;> simp [onSaveUserLinks, JsValue.truthy, JsValue.isArray]

/-- C5: for every working list and valid (source, destination) pair,
reorder keeps the length and the multiset of entries; a drop onto the
source index itself leaves the list unchanged; and on the list
[https://a.com, https://b.com] dragging index 0 to index 1 yields
[https://b.com, https://a.com]. -/
theorem C5_reorder (l : List String) (d i : Nat) (hd : d < l.length)
    (hi : i < l.length) :
    (handleIconDrop l (some d) i).length = l.length ∧
    List.Perm (handleIconDrop l (some d) i) l ∧
    (d = i → handleIconDrop l (some d) i = l) ∧
    handleIconDrop ["https://a.com", "https://b.com"] (some 0) 1 =
      ["https://b.com", "https://a.com"] := by
  have hperm : List.Perm (handleIconDrop l (some d) i) l := by
    by_cases hdi : d = i
    · simp [handleIconDrop, hdi]
    · have hne : (d == i) = false := by simp [hdi]
      simp only [handleIconDrop, hne, Bool.false_eq_true, if_false]
      have hlen : (l.eraseIdx d).length = l.length - 1 := by
        rw [List.length_eraseIdx]; simp [hd]
      have hle : i ≤ (l.eraseIdx d).length := by omega
      have h1 := insertIdx_perm_cons (l.getD d "") i (l.eraseIdx d) hle
      have hgd : l.getD d "" = l[d] := List.getD_eq_getElem l "" hd
      have h2 : List.Perm (l[d] :: l.eraseIdx d) l := by
        have e := List.erase_getElem hd
        have c := List.perm_cons_erase (l.getElem_mem hd)
        exact ((e.cons l[d]).symm).trans c.symm
      rw [hgd] at h1 ⊢
      exact h1.trans h2
  refine ⟨hperm.length_eq, hperm, ?_, by decide⟩
  intro hdi
  simp [handleIconDrop, hdi]

/-- C5 witness: the scenario drag 0 to 1 on a two-element list, through the
reorder theorem at that concrete input. -/
theorem C5_reorder_witness :
    handleIconDrop ["https://a.com", "https://b.com"] (some 0) 1 =
      ["https://b.com", "https://a.com"] :=
  (C5_reorder ["https://a.com", "https://b.com"] 0 1 (by decide) (by decide)).2.2.2

/-- C6: adding a non-blank, syntactically valid URL that is not yet present
appends it at the last position, leaving every pre-existing entry in place,
and grows the list by exactly one. -/
theorem C6_add_appends (links : List String) (u : String)
    (hne : isBlank u = false) (hvalid : isValidUrl u = true) (hmem : u ∉ links) :
    handleAddLink links u = { userLinks := links ++ [u], addLinkError := "" } ∧
    (handleAddLink links u).userLinks.length = links.length + 1 := by
  refine ⟨?_, ?_⟩ <;> simp [handleAddLink, hne, hvalid, hmem]

/-- C6 witness: adding https://example.com to the empty list. -/
theorem C6_add_appends_witness :
    handleAddLink [] "https://example.com" =
      { userLinks := ["https://example.com"], addLinkError := "" } :=
  (C6_add_appends [] "https://example.com" (by decide) (by decide) (by decide)).1

/-- C2 counterexample: on the working list holding https://a.com twice
(reachable by importing a file repeating it), a confirmed delete of that
URL removes every match — where removal of only the first match would
leave one copy — and the resulting empty list is not persisted: the save
effect issues no message and the stored list keeps its previous value. -/
theorem C2_delete_counterexample :
    (handleConfirmDelete
      { userLinks := ["https://a.com", "https://a.com"]
        showDeleteConfirmation := true
        urlToDelete := "https://a.com" }).userLinks = [] ∧
    saveUserLinksEffect [] ["https://a.com"] = (false, ["https://a.com"]) :=
  ⟨rfl, rfl⟩

/-- C2 amended: a confirmed delete with a non-empty target removes every
exact match of the target — equivalently the first match when the working
list is duplicate-free — the save effect persists the resulting list
exactly when that list is non-empty (deleting to empty issues no save and
leaves the stored list at its previous value), and cancelling the dialog
leaves the working list unchanged. -/
theorem C2_delete_amended (s : DeleteDialogState) (stored : List String)
    (h : s.urlToDelete ≠ "") :
    (handleConfirmDelete s).userLinks =
      s.userLinks.filter (fun url => url != s.urlToDelete) ∧
    (s.userLinks.Nodup →
      (handleConfirmDelete s).userLinks = s.userLinks.erase s.urlToDelete) ∧
    ((handleConfirmDelete s).userLinks ≠ [] →
      saveUserLinksEffect (handleConfirmDelete s).userLinks stored =
        (true, (handleConfirmDelete s).userLinks)) ∧
    ((handleConfirmDelete s).userLinks = [] →
      saveUserLinksEffect (handleConfirmDelete s).userLinks stored = (false, stored)) ∧
    (handleCancelDelete s).userLinks = s.userLinks := by
  have hb : (s.urlToDelete != "") = true := by simpa using h
  have hfil : (handleConfirmDelete s).userLinks =
      s.userLinks.filter (fun url => url != s.urlToDelete) := by
    simp [handleConfirmDelete, hb]
  refine ⟨hfil, ?_, ?_, ?_, rfl⟩
  · intro hnd
    rw [hfil]
    exact (hnd.erase_eq_filter s.urlToDelete).symm
  · intro hne
    have hpos : 0 < (handleConfirmDelete s).userLinks.length := List.length_pos.mpr hne
    simp [saveUserLinksEffect, hpos]
  · intro he
    simp [saveUserLinksEffect, he]

/-- C2 amended, witness: deleting https://a.com from a two-element
duplicate-free list removes exactly its first (only) match. -/
theorem C2_delete_amended_witness :
    (handleConfirmDelete
      { userLinks := ["https://a.com", "https://b.com"]
        showDeleteConfirmation := true
        urlToDelete := "https://a.com" }).userLinks =
      (["https://a.com", "https://b.com"] : List String).erase "https://a.com" :=
  (C2_delete_amended
    { userLinks := ["https://a.com", "https://b.com"]
      showDeleteConfirmation := true
      urlToDelete := "https://a.com" } [] (by decide)).2.1 (by decide)

/-- C7 counterexample: adding the string not-a-url when it is already
present in the working list reports the validation error, not the
duplicate error, because the validity check runs before the duplicate
check (the list is still unchanged). -/
theorem C7_duplicate_error_counterexample :
    handleAddLink ["not-a-url"] "not-a-url" =
      { userLinks := ["not-a-url"], addLinkError := "Please enter a valid URL" } ∧
    "Please enter a valid URL" ≠ "This URL is already added" :=
  ⟨rfl, by decide⟩

/-- C7 amended: adding a URL already present leaves the working list
unchanged in every case, and reports the duplicate error provided the URL
passes the blank and validity checks that run first (as every URL accepted
into the list did); a present entry failing those checks reports a
validation error instead, with the list still unchanged. -/
theorem C7_add_duplicate_amended (links : List String) (u : String) (hmem : u ∈ links) :
    (handleAddLink links u).userLinks = links ∧
    (isBlank u = false → isValidUrl u = true →
      (handleAddLink links u).addLinkError = "This URL is already added") := by
  have hc : links.contains u = true := by simpa using hmem
  constructor
  · unfold handleAddLink
    split_ifs <;> simp_all
  · intro hb hv
    simp [handleAddLink, hb, hv, hc, hmem]

/-- C7 amended, witness: adding https://a.com to a list already containing
it reports the duplicate error and leaves the list unchanged. -/
theorem C7_add_duplicate_amended_witness :
    (handleAddLink ["https://a.com"] "https://a.com").userLinks = ["https://a.com"] ∧
    (handleAddLink ["https://a.com"] "https://a.com").addLinkError =
      "This URL is already added" :=
  ⟨(C7_add_duplicate_amended ["https://a.com"] "https://a.com" (by decide)).1,
   (C7_add_duplicate_amended ["https://a.com"] "https://a.com" (by decide)).2
     (by decide) (by decide)⟩

/-- C8 counterexample: exporting the working list [not-a-url] and importing
the resulting document into an empty working list does not reproduce the
list — the entry fails URL validation, import reports the no-valid-URLs
error, and the final list is empty. -/
theorem C8_roundtrip_counterexample :
    processImportedFile []
        (handleExportData ["not-a-url"] "2024-01-01T00:00:00.000Z") =
      { userLinks := []
        importError := "No valid URLs found in the imported file."
        importSuccess := "" } ∧
    ([] : List String) ≠ ["not-a-url"] :=
  ⟨rfl, by decide⟩

/-- C8 amended: for every working list all of whose entries are valid URL
strings, exporting it (a document carrying the list under urls, an export
date, and version 1.0) and importing the document into an empty working
list reproduces the original list exactly. -/
theorem C8_roundtrip_amended (links : List String) (date : String)
    (h : ∀ u ∈ links, isValidUrl u = true) :
    (processImportedFile [] (handleExportData links date)).userLinks = links := by
  unfold handleExportData
  rw [processImportedFile_arr, map_str_classify links h]
  cases links with
  | nil => rfl
  | cons a rest => simp

/-- C8 amended, witness: a two-element list of valid URLs survives the
export-import round trip. -/
theorem C8_roundtrip_amended_witness :
    (processImportedFile []
      (handleExportData ["https://a.com", "https://b.com"]
        "2024-01-01T00:00:00.000Z")).userLinks =
      ["https://a.com", "https://b.com"] :=
  C8_roundtrip_amended ["https://a.com", "https://b.com"]
    "2024-01-01T00:00:00.000Z" (by decide)

/-- C4 counterexample: two imports with different duplicate-skipped counts
— one duplicate when importing [https://a.com, https://b.com, not-a-url]
against the list [https://a.com], none when importing [https://b.com,
not-a-url] against the list [https://z.com] — produce identical reported
messages, so the report cannot state the correct count of entries skipped
as duplicates. -/
theorem C4_report_counterexample :
    (processImportedFile ["https://a.com"]
      { urls := .arr [.str "https://a.com", .str "https://b.com", .str "not-a-url"]
        exportDate := .undefined
        version := .undefined }).importSuccess =
      (processImportedFile ["https://z.com"]
        { urls := .arr [.str "https://b.com", .str "not-a-url"]
          exportDate := .undefined
          version := .undefined }).importSuccess ∧
    (processImportedFile ["https://a.com"]
      { urls := .arr [.str "https://a.com", .str "https://b.com", .str "not-a-url"]
        exportDate := .undefined
        version := .undefined }).importError =
      (processImportedFile ["https://z.com"]
        { urls := .arr [.str "https://b.com", .str "not-a-url"]
          exportDate := .undefined
          version := .undefined }).importError ∧
    (importDuplicateSkipped ["https://a.com"]
      [.str "https://a.com", .str "https://b.com", .str "not-a-url"]).length = 1 ∧
    (importDuplicateSkipped ["https://z.com"]
      [.str "https://b.com", .str "not-a-url"]).length = 0 :=
  ⟨rfl, rfl, rfl, rfl⟩

/-- C4 amended: importing a file whose urls array has at least one
valid-new entry appends exactly the valid-new entries (valid entries not
already in the working list) in their original relative order, and the
reported message states the correct counts of entries imported and of
entries skipped as invalid; the count of entries skipped as duplicates is
not part of the report. -/
theorem C4_import_amended (links : List String) (es : List JsValue) (ed ver : JsValue)
    (hnew : (es.filterMap importEntryUrl?).filter (fun u => !links.contains u) ≠ []) :
    (processImportedFile links
        { urls := .arr es, exportDate := ed, version := ver }).userLinks =
      links ++ (es.filterMap importEntryUrl?).filter (fun u => !links.contains u) ∧
    (processImportedFile links
        { urls := .arr es, exportDate := ed, version := ver }).importSuccess =
      importSuccessMessage
        ((es.filterMap importEntryUrl?).filter (fun u => !links.contains u)).length
        (es.filter (fun v => !isValidImportEntry v)).length ∧
    (processImportedFile links
        { urls := .arr es, exportDate := ed, version := ver }).importError = "" := by
  have hf := classifyImportUrls_fst es
  have hs := classifyImportUrls_snd es
  have hvne : (classifyImportUrls es).1.filter (fun u => !links.contains u) ≠ [] := by
    rw [hf]; exact hnew
  have hvalidne : (classifyImportUrls es).1 ≠ [] := by
    intro h0
    exact hvne (by simp [h0])
  have c1 : ((classifyImportUrls es).1.length == 0) = false := by
    cases hcl : (classifyImportUrls es).1 with
    | nil => exact absurd hcl hvalidne
    | cons x xs => rfl
  have c2 : (((classifyImportUrls es).1.filter
      (fun u => !links.contains u)).length == 0) = false := by
    cases hcl : (classifyImportUrls es).1.filter (fun u => !links.contains u) with
    | nil => exact absurd hcl hvne
    | cons x xs => rfl
  rw [processImportedFile_arr]
  simp only [c1, c2, Bool.false_eq_true, if_false]
  exact ⟨by rw [hf], by rw [hf, hs], trivial⟩

/-- C4 amended, witness: importing a mixed file (one duplicate, one new,
one invalid entry) appends exactly the valid-new entry. -/
theorem C4_import_amended_witness :
    (processImportedFile ["https://a.com"]
      { urls := .arr [.str "https://a.com", .str "https://b.com", .str "not-a-url"]
        exportDate := .undefined
        version := .undefined }).userLinks =
      ["https://a.com"] ++
        (([.str "https://a.com", .str "https://b.com", .str "not-a-url"] :
            List JsValue).filterMap importEntryUrl?).filter
          (fun u => !(["https://a.com"] : List String).contains u) :=
  (C4_import_amended ["https://a.com"]
    [.str "https://a.com", .str "https://b.com", .str "not-a-url"]
    .undefined .undefined (by decide)).1

/-- C9: when every load attempt against the storage backend fails, the
retry loop makes exactly 3 attempts, waits 500 ms before the second and
750 ms before the third (the 1.5 multiplier applied once), and returns
normally — no unhandled fault — with the working list still the empty list
it started as; a fresh addition is then accepted by Add. -/
theorem C9_retry_exhaustion (respond : Nat → LoadAttemptOutcome)
    (h : ∀ n, loadAttemptData (respond n) = none) :
    loadUserLinksWithRetry respond [] =
      { attempts := 3, waits := [500, 750], userLinks := [] } ∧
    (handleAddLink [] "https://example.com").userLinks = ["https://example.com"] := by
  refine ⟨?_, by decide⟩
  simp [loadUserLinksWithRetry, loadLoop, h]

/-- C9 witness: a backend whose every attempt throws. -/
theorem C9_retry_exhaustion_witness :
    loadUserLinksWithRetry (fun _ => .thrown "storage backend failure") [] =
      { attempts := 3, waits := [500, 750], userLinks := [] } :=
  (C9_retry_exhaustion (fun _ => .thrown "storage backend failure") (fun _ => rfl)).1

/-- C10: the save effect issues a save message exactly when the working
list is non-empty and otherwise leaves the stored list at its previous
value; in particular deleting the sole remaining bookmark clears the
working list and the subsequent save effect leaves the stored list
untouched. -/
theorem C10_no_empty_persist (links stored : List String) :
    (saveUserLinksEffect links stored).1 = decide (links ≠ []) ∧
    saveUserLinksEffect [] stored = (false, stored) ∧
    (handleConfirmDelete
      { userLinks := ["https://a.com"]
        showDeleteConfirmation := true
        urlToDelete := "https://a.com" }).userLinks = [] ∧
    saveUserLinksEffect
      (handleConfirmDelete
        { userLinks := ["https://a.com"]
          showDeleteConfirmation := true
          urlToDelete := "https://a.com" }).userLinks stored = (false, stored) := by
  refine ⟨?_, rfl, rfl, rfl⟩
  cases links <;> simp [saveUserLinksEffect]

end Sidebar
